import Mathlib

/-!
Verification of the `generate` package of go-kafka-message-generator.

The Go source is shallowly embedded:
* Go panics are modelled with `Option` (`none` = panic).
* Functions returning `error` are modelled with `Except String` inside `Option`.
* Byte slices are `List Nat` with every entry `< 256`.
* Machine integers are `Nat`/`Int` with explicit `% 2 ^ w` where wrap-around matters.
Strings are assumed ASCII, so Go's byte-indexed `s[0:1]`/`s[1:]` coincides with
character-indexed `take`/`drop`.
-/

/-- Models a Go `any` value held by `MessageField.Default` (set via JSON unmarshalling).
`str`/`int` are the two kinds the generator's type assertions test for; `other`
carries the `%v` and `%T` renderings of any other value. -/
inductive GoVal where
  | str (s : String)
  | int (n : Int)
  | other (reprV typeName : String)
deriving DecidableEq, Repr

/-- Go `%v` rendering of a `GoVal` (used in error messages). -/
def GoVal.fmtV : GoVal → String
  | .str s => s
  | .int n => toString n
  | .other r _ => r

/-- Go `%T` rendering of a `GoVal` (used in error messages). -/
def GoVal.fmtT : GoVal → String
  | .str _ => "string"
  | .int _ => "int"
  | .other _ t => t

/-- `model.MessageField`: name, type, versions, optional default, nested fields
(nested fields non-empty iff the field is an inline struct). `About`/`Ignorable`
are never read by the generator and are omitted. -/
inductive MessageField where
  | mk (name type versions : String) (default : Option GoVal) (fields : List MessageField)

/-- Field name accessor (Go `field.Name`). -/
def MessageField.name : MessageField → String
  | .mk n _ _ _ _ => n

/-- Field type accessor (Go `field.Type`). -/
def MessageField.type : MessageField → String
  | .mk _ t _ _ _ => t

/-- Field versions accessor (Go `field.Versions`). -/
def MessageField.versions : MessageField → String
  | .mk _ _ v _ _ => v

/-- Field default accessor (Go `field.Default`, a `*any`; `none` = nil pointer). -/
def MessageField.default : MessageField → Option GoVal
  | .mk _ _ _ d _ => d

/-- Nested fields accessor (Go `field.Fields`). -/
def MessageField.fields : MessageField → List MessageField
  | .mk _ _ _ _ fs => fs

/-- `model.CommonStruct`: name, versions, field list. -/
structure CommonStruct where
  name : String
  versions : String
  fields : List MessageField

/-- `model.Message`. `MessageType`, `ValidVersions` and `FlexibleVersions` are
carried by the model but never read by the generator and are omitted here. -/
structure Message where
  name : String
  fields : List MessageField
  commonStructs : List CommonStruct

/-- `util.codeBuffer`: accumulated lines plus the current indent level.
The indent string is the constant `"    "` (four spaces, set by `NewCodeBuffer`). -/
structure CodeBuffer where
  lines : List String
  indentLevel : Nat
deriving DecidableEq, Repr

/-- `util.NewCodeBuffer()`: empty buffer at indent level 0. -/
def emptyCodeBuffer : CodeBuffer := { lines := [], indentLevel := 0 }

/-- `codeBuffer.indentSpaces`: the indent string repeated `indentLevel` times. -/
def CodeBuffer.indentSpaces (cb : CodeBuffer) : String :=
  String.join (List.replicate cb.indentLevel "    ")

/-- `codeBuffer.AddLine`: append one line, prefixed with the current indent.
The `fmt.Sprintf` formatting is applied at each call site of the embedding. -/
def CodeBuffer.addLine (cb : CodeBuffer) (line : String) : CodeBuffer :=
  { cb with lines := cb.lines ++ [cb.indentSpaces ++ line] }

/-- `codeBuffer.IncrementIndent`. -/
def CodeBuffer.incIndent (cb : CodeBuffer) : CodeBuffer :=
  { cb with indentLevel := cb.indentLevel + 1 }

/-- `codeBuffer.DecrementIndent`: decrements, panicking (`none`) when the level
would drop below zero. -/
def CodeBuffer.decIndent (cb : CodeBuffer) : Option CodeBuffer :=
  if cb.indentLevel = 0 then none
  else some { cb with indentLevel := cb.indentLevel - 1 }

/-- Go `capitalize`: `strings.ToUpper(s[0:1]) + s[1:]`.
Panics (`none`) on the empty string because `s[0:1]` is out of range. -/
def capitalize (s : String) : Option String :=
  match s.toList with
  | [] => none
  | c :: rest => some (String.mk (c.toUpper :: rest))

/-- Go `deconstructFieldType`: matches `arrayRegex = ^(\[])?(.+)$` and returns
`(m[1] == "[]", m[2])`.  `(.+)` needs at least one character and `.` does not
match a newline, so the regexp fails to match (and indexing the nil result
panics, `none`) exactly when the string is empty or contains a newline.
Otherwise the optional group `(\[])?` greedily takes a leading `"[]"` provided
at least one character remains for `(.+)`. -/
def deconstructFieldType (fieldType : String) : Option (Bool × String) :=
  match fieldType.toList with
  | [] => none
  | l =>
    if l.contains '\n' then none
    else
      match l with
      | '[' :: ']' :: c :: rest => some (true, String.mk (c :: rest))
      | _ => some (false, fieldType)

/-- Maximal run of decimal digits (`\d+` is ASCII `[0-9]` in Go's RE2). -/
def digitSpan : List Char → List Char × List Char
  | [] => ([], [])
  | c :: rest =>
    if c.isDigit then
      let (d, r) := digitSpan rest
      (c :: d, r)
    else ([], c :: rest)

/-- Match of `(\d+)-(\d+)` starting at the head of the list, returning
`(m[0], m[1], m[2])`.  Greedy matching without backtracking is exact here:
shrinking the first `\d+` leaves a digit where `-` is required. -/
def matchRangeAt (l : List Char) : Option (String × String × String) :=
  match digitSpan l with
  | ([], _) => none
  | (d1, r1) =>
    match r1 with
    | '-' :: r2 =>
      match digitSpan r2 with
      | ([], _) => none
      | (d2, _) => some (String.mk d1 ++ "-" ++ String.mk d2, String.mk d1, String.mk d2)
    | _ => none

/-- Leftmost match of `(\d+)-(\d+)` (Go regexps pick the match with the
smallest starting index). -/
def findRangeAux : List Char → Option (String × String × String)
  | [] => none
  | c :: rest =>
    match matchRangeAt (c :: rest) with
    | some m => some m
    | none => findRangeAux rest

/-- `versionRangeRegexp.FindStringSubmatch(versions)` for `(\d+)-(\d+)`:
nil (`[]`) when there is no match, otherwise a slice of length 3
(the whole match plus the two submatches). -/
def versionRangeFind (s : String) : List String :=
  match findRangeAux s.toList with
  | some (m0, m1, m2) => [m0, m1, m2]
  | none => []

/-- Match of `(\d+)\+` starting at the head of the list, returning `(m[0], m[1])`. -/
def matchMinAt (l : List Char) : Option (String × String) :=
  match digitSpan l with
  | ([], _) => none
  | (d, r) =>
    match r with
    | '+' :: _ => some (String.mk d ++ "+", String.mk d)
    | _ => none

/-- Leftmost match of `(\d+)\+`. -/
def findMinAux : List Char → Option (String × String)
  | [] => none
  | c :: rest =>
    match matchMinAt (c :: rest) with
    | some m => some m
    | none => findMinAux rest

/-- `versionMinRegexp.FindStringSubmatch(versions)` for `(\d+)\+`:
nil when there is no match, otherwise a slice of length 2. -/
def versionMinFind (s : String) : List String :=
  match findMinAux s.toList with
  | some (m0, m1) => [m0, m1]
  | none => []

/-- Match of `(\d+)` starting at the head of the list. -/
def matchNumAt (l : List Char) : Option (String × String) :=
  match digitSpan l with
  | ([], _) => none
  | (d, _) => some (String.mk d, String.mk d)

/-- Leftmost match of `(\d+)`. -/
def findNumAux : List Char → Option (String × String)
  | [] => none
  | c :: rest =>
    match matchNumAt (c :: rest) with
    | some m => some m
    | none => findNumAux rest

/-- `versionRegexp.FindStringSubmatch(versions)` for `(\d+)`:
nil when there is no match, otherwise a slice of length 2. -/
def versionNumFind (s : String) : List String :=
  match findNumAux s.toList with
  | some (m0, m1) => [m0, m1]
  | none => []

/-- Go `fmt`'s rendering of the `%d` verb applied to a `string` argument. -/
def goFmtDOfString (s : String) : String :=
  "%!d(string=" ++ s ++ ")"

/-- Go `addVersionIfClause`: tries the three version regexps in order,
each guarded by a test on `len(m)` where `m` is the `FindStringSubmatch`
result.  A successful `FindStringSubmatch` returns `1 + NumSubexp` strings,
i.e. 3 / 2 / 2 here, while the source compares against 2 / 1 / 1 — the
comparisons in the source are kept verbatim. -/
def addVersionIfClause (cb : CodeBuffer) (versions : String) : CodeBuffer × Bool :=
  let m := versionRangeFind versions
  if m.length = 2 then
    (cb.addLine ("if version >= " ++ goFmtDOfString (m.getD 0 "") ++ " || version <= " ++
       goFmtDOfString (m.getD 1 "")), true)
  else
    let m := versionMinFind versions
    if m.length = 1 then
      (cb.addLine ("if version >= " ++ goFmtDOfString (m.getD 0 "")), true)
    else
      let m := versionNumFind versions
      if m.length = 1 then
        (cb.addLine ("if version == " ++ goFmtDOfString (m.getD 0 "")), true)
      else (cb, false)

/-- Go `addReadString`: emits the generated string-read block.  All literal
braces of the generated Go text are written as escapes.  Panics (`none`)
when `capitalize` is applied to an empty field name. -/
def addReadString (cb : CodeBuffer) (fieldName : String) (appendToArray : Bool) :
    Option CodeBuffer := do
  let cb := cb.addLine "\x7b"
  let cb := cb.incIndent
  let cb := cb.addLine "stringLen := binary.BigEndian.Uint16(data)"
  let cb := cb.addLine "if stringLen < 0 \x7b"
  let cb := cb.incIndent
  let cb := cb.addLine
    ("return res, fmt.Errorf(\"non-nullable field " ++ fieldName ++ " was serialized as null\")")
  let cb ← cb.decIndent
  let cb := cb.addLine "\x7d else if stringLen > 0x7fff \x7b"
  let cb := cb.incIndent
  let cb := cb.addLine
    ("return res, fmt.Errorf(\"string field " ++ fieldName ++ " had invalid length %d\", stringLen)")
  let cb ← cb.decIndent
  let cb := cb.addLine "\x7d else \x7b"
  let cb := cb.incIndent
  let cap ← capitalize fieldName
  let cb :=
    if appendToArray then
      cb.addLine ("res." ++ cap ++ " = append(res." ++ cap ++ ", string(data[0:stringLen]))")
    else
      cb.addLine ("res." ++ cap ++ " = string(data[0:stringLen])")
  let cb := cb.addLine "data = data[stringLen:]"
  let cb ← cb.decIndent
  let cb := cb.addLine "\x7d"
  let cb ← cb.decIndent
  pure (cb.addLine "\x7d")

/-- Go `addReadBytes`: emits the generated bytes-read block. -/
def addReadBytes (cb : CodeBuffer) (fieldName : String) (appendToArray : Bool) :
    Option CodeBuffer := do
  let cb := cb.addLine "\x7b"
  let cb := cb.incIndent
  let cb := cb.addLine "bytesLen, err := binary.ReadUvarint(bytes.NewReader(data))"
  let cb := cb.addLine "if err != nil \x7b"
  let cb := cb.incIndent
  let cb := cb.addLine "return res, fmt.Errorf(\"problem reading uvarint: %w\", err)"
  let cb ← cb.decIndent
  let cb := cb.addLine "\x7d"
  let cb := cb.addLine "if bytesLen < 0 \x7b"
  let cb := cb.incIndent
  let cb := cb.addLine "return res, fmt.Errorf(\"non-nullable field group was serialized as null\")"
  let cb ← cb.decIndent
  let cb := cb.addLine "\x7d"
  let cap ← capitalize fieldName
  let cb :=
    if appendToArray then
      cb.addLine ("res." ++ cap ++ " = append(res." ++ cap ++ ", data[0:bytesLen])")
    else
      cb.addLine ("res." ++ cap ++ " = data[0:bytesLen]")
  let cb := cb.addLine "data = data[bytesLen:]"
  let cb ← cb.decIndent
  pure (cb.addLine "\x7d")

/-- Go `addAllocateCommonStruct`: emits a call to the common struct's
constructor `New<CapitalizedBase>` followed by the error check. -/
def addAllocateCommonStruct (cb : CodeBuffer) (fieldType : String) : Option CodeBuffer := do
  let (_, ft) ← deconstructFieldType fieldType
  let cft ← capitalize ft
  let cb := cb.addLine ("v, err := New" ++ cft ++ "(data)")
  let cb := cb.addLine "if err != nil \x7b"
  let cb := cb.incIndent
  let cb := cb.addLine ("return res, fmt.Errorf(\"problem building " ++ cft ++ ": %w\", err)")
  let cb ← cb.decIndent
  pure (cb.addLine "\x7d")

/-- Go `addAllocateInlineStruct`: like `addAllocateCommonStruct` but the
constructor name is prefixed with the owning message name. -/
def addAllocateInlineStruct (cb : CodeBuffer) (name fieldType : String) : Option CodeBuffer := do
  let (_, ft) ← deconstructFieldType fieldType
  let cft ← capitalize ft
  let cb := cb.addLine ("v, err := New" ++ name ++ cft ++ "(data)")
  let cb := cb.addLine "if err != nil \x7b"
  let cb := cb.incIndent
  let cb := cb.addLine ("return res, fmt.Errorf(\"problem building " ++ name ++ cft ++ ": %w\", err)")
  let cb ← cb.decIndent
  pure (cb.addLine "\x7d")

/-- Go `addReadField`: per-field decode emission.  The Go `switch` statements
on the field type are rendered as sequential equality tests.  `none` models a
panic, `some (.error e)` a returned compile error. -/
def addReadField (cb : CodeBuffer) (name : String) (field : MessageField) :
    Option (Except String CodeBuffer) := do
  let (cb, versions) := addVersionIfClause cb field.versions
  let cb := if versions then cb.incIndent else cb
  let (isArray, fieldType) ← deconstructFieldType field.type
  let cb ←
    if isArray then do
      let cb := cb.addLine "\x7b"
      let cb := cb.incIndent
      let cb := cb.addLine "arrLen, err := binary.ReadUvarint(bytes.NewReader(data))"
      let cb := cb.addLine "if err != nil \x7b"
      let cb := cb.incIndent
      let cb := cb.addLine "return res, fmt.Errorf(\"problem reading uvarint: %w\", err)"
      let cb ← cb.decIndent
      let cb := cb.addLine "\x7d"
      let cb := cb.addLine "arrLen--"
      let cb := cb.addLine "for i := uint64(0); i < arrLen; i++ \x7b"
      let cb := cb.incIndent
      let cb ←
        if fieldType = "int8" then do
          let cap ← capitalize field.name
          let cb := cb.addLine ("res." ++ cap ++ " = append(res." ++ cap ++ ", int8(data[0]))")
          pure (cb.addLine "data = data[1:]")
        else if fieldType = "int16" then do
          let cap ← capitalize field.name
          pure (cb.addLine
            ("res." ++ cap ++ " = append(res." ++ cap ++ ", int16(binary.BigEndian.Uint16(data)))"))
        else if fieldType = "int32" then do
          let cap ← capitalize field.name
          pure (cb.addLine
            ("res." ++ cap ++ " = append(res." ++ cap ++ ", int32(binary.BigEndian.Uint32(data)))"))
        else if fieldType = "int64" then do
          -- the source applies an int32 conversion to the Uint64 read here
          let cap ← capitalize field.name
          pure (cb.addLine
            ("res." ++ cap ++ " = append(res." ++ cap ++ ", int32(binary.BigEndian.Uint64(data)))"))
        else if fieldType = "string" then
          addReadString cb field.name true
        else if fieldType = "uuid" then do
          let cap ← capitalize field.name
          pure (cb.addLine
            ("res." ++ cap ++ " = append(res." ++ cap ++ ", binary.BigEndian.Uint16(data))"))
        else if fieldType = "bytes" then
          addReadBytes cb field.name true
        else do
          let cb := cb.addLine "\x7b"
          let cb := cb.incIndent
          let cb ←
            if field.fields.length > 0 then addAllocateInlineStruct cb name field.type
            else addAllocateCommonStruct cb field.type
          let cap ← capitalize field.name
          let cb := cb.addLine ("res." ++ cap ++ " = append(res." ++ cap ++ ", v)")
          let cb ← cb.decIndent
          pure (cb.addLine "\x7d")
      let cb ← cb.decIndent
      let cb := cb.addLine "\x7d"
      let cb ← cb.decIndent
      pure (cb.addLine "\x7d")
    else
      if fieldType = "int8" then do
        let cap ← capitalize field.name
        let cb := cb.addLine ("res." ++ cap ++ " = int8(data[0])")
        pure (cb.addLine "data = data[1:]")
      else if fieldType = "int16" then do
        let cap ← capitalize field.name
        pure (cb.addLine ("res." ++ cap ++ " = int16(binary.BigEndian.Uint16(data))"))
      else if fieldType = "int32" then do
        let cap ← capitalize field.name
        pure (cb.addLine ("res." ++ cap ++ " = int32(binary.BigEndian.Uint32(data))"))
      else if fieldType = "int64" then do
        let cap ← capitalize field.name
        pure (cb.addLine ("res." ++ cap ++ " = int64(binary.BigEndian.Uint64(data))"))
      else if fieldType = "string" then
        addReadString cb field.name false
      else if fieldType = "uuid" then do
        let cap ← capitalize field.name
        pure (cb.addLine ("res." ++ cap ++ " = binary.BigEndian.Uint16(data)"))
      else if fieldType = "bytes" then
        addReadBytes cb field.name false
      else do
        let cb := cb.addLine "\x7b"
        let cb := cb.incIndent
        let cb ←
          if field.fields.length > 0 then addAllocateInlineStruct cb name field.type
          else addAllocateCommonStruct cb field.type
        let cap ← capitalize field.name
        let cb := cb.addLine ("res." ++ cap ++ " = v")
        let cb ← cb.decIndent
        pure (cb.addLine "\x7d")
  if versions then do
    let cb ← cb.decIndent
    match field.default with
    | none => pure (Except.ok (cb.addLine "\x7d"))
    | some dv =>
      let cb := cb.addLine "\x7d else \x7b"
      let cb := cb.incIndent
      if field.type = "string" then
        match dv with
        | .str s => do
          let cap ← capitalize field.name
          let cb := cb.addLine ("res." ++ cap ++ " = " ++ s)
          let cb ← cb.decIndent
          pure (Except.ok (cb.addLine "\x7d"))
        | _ =>
          pure (Except.error
            ("unexpected value type for string default: " ++ dv.fmtV ++ " (" ++ dv.fmtT ++ ")"))
      else if field.type = "int32" ∨ field.type = "int64" then
        match dv with
        | .int n => do
          let cap ← capitalize field.name
          let cb := cb.addLine ("res." ++ cap ++ " = " ++ toString n)
          let cb ← cb.decIndent
          pure (Except.ok (cb.addLine "\x7d"))
        | _ =>
          pure (Except.error
            ("unexpected value type for int default: " ++ dv.fmtV ++ " (" ++ dv.fmtT ++ ")"))
      else pure (Except.error ("unrecognized field type: " ++ field.type))
  else pure (Except.ok cb)

/-- The field loops of `ReadX` / `NewX` constructors: run `addReadField` over a
field list, stopping at the first error (Go's early `return err`). -/
def addReadFields : CodeBuffer → String → List MessageField → Option (Except String CodeBuffer)
  | cb, _, [] => some (Except.ok cb)
  | cb, name, f :: rest =>
    match addReadField cb name f with
    | none => none
    | some (Except.error e) => some (Except.error e)
    | some (Except.ok cb) => addReadFields cb name rest

/-- One iteration of the Go `addStructFields` loop: emit the struct-field
line for one field, mapping `uuid` to `uint16` and `bytes` to `[]byte`, and
prefixing the owning message name for inline (nested) struct fields. -/
def addStructField (cb : CodeBuffer) (name : String) (field : MessageField) :
    Option CodeBuffer := do
  let fieldType :=
    if field.type = "uuid" then "uint16"
    else if field.type = "bytes" then "[]byte"
    else field.type
  if field.fields.length > 0 then do
    let (isArray, ft) ← deconstructFieldType fieldType
    let cap ← capitalize field.name
    if isArray then pure (cb.addLine (cap ++ " []" ++ name ++ ft))
    else pure (cb.addLine (cap ++ " " ++ name ++ fieldType))
  else do
    let cap ← capitalize field.name
    pure (cb.addLine (cap ++ " " ++ fieldType))

/-- Go `addStructFields`: one struct-field line per field. -/
def addStructFields : CodeBuffer → String → List MessageField → Option CodeBuffer
  | cb, _, [] => some cb
  | cb, name, field :: rest => do
    let cb ← addStructField cb name field
    addStructFields cb name rest

/-- Go `addCommonStruct`: type definition plus `New<CapitalizedName>`
constructor for one common struct. -/
def addCommonStruct (cb : CodeBuffer) (name : String) (cs : CommonStruct) :
    Option (Except String CodeBuffer) := do
  let (cb, versions) := addVersionIfClause cb cs.versions
  let cb := if versions then cb.incIndent else cb
  let cb := cb.addLine ("type " ++ cs.name ++ " struct \x7b")
  let cb := cb.incIndent
  let cb ← addStructFields cb name cs.fields
  let cb ← cb.decIndent
  let cb := cb.addLine "\x7d"
  let capN ← capitalize cs.name
  let cb := cb.addLine ("func New" ++ capN ++ "(data []byte) (" ++ capN ++ ", error) \x7b")
  let cb := cb.incIndent
  let cb := cb.addLine ("var res " ++ capN)
  match ← addReadFields cb name cs.fields with
  | Except.error e => pure (Except.error e)
  | Except.ok cb => do
    let cb := cb.addLine "return res, nil"
    let cb ← cb.decIndent
    let cb := cb.addLine "\x7d"
    if versions then do
      let cb ← cb.decIndent
      pure (Except.ok (cb.addLine "\x7d"))
    else pure (Except.ok cb)

/-- Go `addInlineStruct`: like `addCommonStruct` but the struct's name is the
owning message name followed by the field's deconstructed base type — note the
type-definition line uses the base type as written while the constructor uses
its capitalization. -/
def addInlineStruct (cb : CodeBuffer) (name : String) (field : MessageField) :
    Option (Except String CodeBuffer) := do
  let (cb, versions) := addVersionIfClause cb field.versions
  let cb := if versions then cb.incIndent else cb
  let (_, fieldType) ← deconstructFieldType field.type
  let cb := cb.addLine ("type " ++ name ++ fieldType ++ " struct \x7b")
  let cb := cb.incIndent
  let cb ← addStructFields cb name field.fields
  let cb ← cb.decIndent
  let cb := cb.addLine "\x7d"
  let capFT ← capitalize fieldType
  let cb := cb.addLine
    ("func New" ++ name ++ capFT ++ "(data []byte) (" ++ name ++ capFT ++ ", error) \x7b")
  let cb := cb.incIndent
  let cb := cb.addLine ("var res " ++ name ++ capFT)
  match ← addReadFields cb name field.fields with
  | Except.error e => pure (Except.error e)
  | Except.ok cb => do
    let cb := cb.addLine "return res, nil"
    let cb ← cb.decIndent
    let cb := cb.addLine "\x7d"
    if versions then do
      let cb ← cb.decIndent
      pure (Except.ok (cb.addLine "\x7d"))
    else pure (Except.ok cb)

/-- Go `collectInlineStructs`: depth-first, parent-before-child list of every
field that carries a nested field list. -/
def collectInlineStructs : List MessageField → List MessageField
  | [] => []
  | .mk n t v d fs :: rest =>
    (if fs.length > 0 then MessageField.mk n t v d fs :: collectInlineStructs fs else [])
      ++ collectInlineStructs rest

/-- One iteration of the Go `collectImports` flag loop on one field.  The
pair is (`dependsOn["bytes"]`, `dependsOn["fmt"]`);
`dependsOn["encoding/binary"]` starts `true` and is never changed. -/
def importFlagsStep (fl : Bool × Bool) (field : MessageField) : Option (Bool × Bool) := do
  let (isArray, fieldType) ← deconstructFieldType field.type
  let fl := if isArray then (true, true) else fl
  pure <|
    if fieldType = "bytes" then (true, true)
    else if fieldType = "string" then (fl.1, true)
    else if fieldType = "int8" ∨ fieldType = "int16" ∨ fieldType = "int32" ∨
        fieldType = "int64" ∨ fieldType = "uuid" then fl
    else (fl.1, true)

/-- The flag-accumulating loop of Go `collectImports`. -/
def collectImportFlags : List MessageField → Bool × Bool → Option (Bool × Bool)
  | [], fl => some fl
  | field :: rest, fl => do
    let fl ← importFlagsStep fl field
    collectImportFlags rest fl

/-- Go `collectImports`: scans the message's fields and every common struct's
fields, then returns the enabled dependencies sorted (`sort.Strings` over the
`true` keys of the map; the sorted order of any subset of
`bytes < encoding/binary < fmt` is made explicit here). -/
def collectImports (spec : Message) : Option (List String) := do
  let fields := spec.fields ++ (spec.commonStructs.map CommonStruct.fields).flatten
  let fl ← collectImportFlags fields (false, false)
  pure ((if fl.1 then ["bytes"] else []) ++ ["encoding/binary"] ++
    (if fl.2 then ["fmt"] else []))

/-- The common-struct loop of `generateFile`, wrapping errors as the call site
does (`problem adding common struct: %w`). -/
def addCommonStructs : CodeBuffer → String → List CommonStruct → Option (Except String CodeBuffer)
  | cb, _, [] => some (Except.ok cb)
  | cb, name, cs :: rest =>
    match addCommonStruct cb name cs with
    | none => none
    | some (Except.error e) => some (Except.error ("problem adding common struct: " ++ e))
    | some (Except.ok cb) => addCommonStructs cb name rest

/-- The inline-struct loop of `generateFile`, wrapping errors as the call site
does (`problem adding inline struct: %w`). -/
def addInlineStructs : CodeBuffer → String → List MessageField → Option (Except String CodeBuffer)
  | cb, _, [] => some (Except.ok cb)
  | cb, name, f :: rest =>
    match addInlineStruct cb name f with
    | none => none
    | some (Except.error e) => some (Except.error ("problem adding inline struct: " ++ e))
    | some (Except.ok cb) => addInlineStructs cb name rest

/-- Go `generateFile`: package clause, import block, message struct, common
structs, inline structs, then the `Read<Name>` decode routine.  Returns the
generated file name together with the filled buffer. -/
def generateFile (packageName : String) (spec : Message) (cb : CodeBuffer) :
    Option (Except String (String × CodeBuffer)) := do
  let cb := cb.addLine ("package " ++ packageName)
  let cb := cb.addLine "import ("
  let cb := cb.incIndent
  let imports ← collectImports spec
  let cb := imports.foldl (fun cb dep => cb.addLine ("\"" ++ dep ++ "\"")) cb
  let cb ← cb.decIndent
  let cb := cb.addLine ")"
  let cb := cb.addLine ("type " ++ spec.name ++ " struct \x7b")
  let cb := cb.incIndent
  let cb ← addStructFields cb spec.name spec.fields
  let cb ← cb.decIndent
  let cb := cb.addLine "\x7d"
  match ← addCommonStructs cb spec.name spec.commonStructs with
  | Except.error e => pure (Except.error e)
  | Except.ok cb =>
  match ← addInlineStructs cb spec.name (collectInlineStructs spec.fields) with
  | Except.error e => pure (Except.error e)
  | Except.ok cb => do
    let cb := cb.addLine
      ("func Read" ++ spec.name ++ "(data []byte, version int) (" ++ spec.name ++ ", error) \x7b")
    let cb := cb.incIndent
    let cb := cb.addLine ("var res " ++ spec.name)
    match ← addReadFields cb spec.name spec.fields with
    | Except.error e => pure (Except.error e)
    | Except.ok cb => do
      let cb := cb.addLine "return res, nil"
      let cb ← cb.decIndent
      let cb := cb.addLine "\x7d"
      pure (Except.ok (spec.name ++ ".go", cb))

/-!
Runtime semantics of the decode statements the generator emits, translated
statement-by-statement from the generated Go text.  The buffer is a byte list;
`none` models a runtime panic of the generated program (index/slice out of
range), `Except.error` one of its `return res, fmt.Errorf(...)` paths.
-/

/-- The error classes of the generated decode routines. -/
inductive ReadErr where
  | unexpectedNull
  | invalidLength
  | varintFailure
deriving DecidableEq, Repr

/-- Go `binary.BigEndian.Uint16(data)`: big-endian from the first 2 bytes,
panicking when fewer are available. -/
def beUint16 : List Nat → Option Nat
  | b0 :: b1 :: _ => some (b0 * 256 + b1)
  | _ => none

/-- Go `binary.BigEndian.Uint32(data)`. -/
def beUint32 : List Nat → Option Nat
  | b0 :: b1 :: b2 :: b3 :: _ => some (((b0 * 256 + b1) * 256 + b2) * 256 + b3)
  | _ => none

/-- Go `binary.BigEndian.Uint64(data)`. -/
def beUint64 : List Nat → Option Nat
  | b0 :: b1 :: b2 :: b3 :: b4 :: b5 :: b6 :: b7 :: _ =>
    some (((((((b0 * 256 + b1) * 256 + b2) * 256 + b3) * 256 + b4) * 256 + b5) * 256
      + b6) * 256 + b7)
  | _ => none

/-- Go `int8(b)` for a byte value. -/
def toInt8 (b : Nat) : Int :=
  if b < 2 ^ 7 then (b : Int) else (b : Int) - 2 ^ 8

/-- Go `int16(n)` for a uint16 value. -/
def toInt16 (n : Nat) : Int :=
  if n < 2 ^ 15 then (n : Int) else (n : Int) - 2 ^ 16

/-- Go `int32(n)` for a uint32 value. -/
def toInt32 (n : Nat) : Int :=
  if n % 2 ^ 32 < 2 ^ 31 then (n % 2 ^ 32 : Nat) else (n % 2 ^ 32 : Int) - 2 ^ 32

/-- Go `int64(n)` for a uint64 value. -/
def toInt64 (n : Nat) : Int :=
  if n % 2 ^ 64 < 2 ^ 63 then (n % 2 ^ 64 : Nat) else (n % 2 ^ 64 : Int) - 2 ^ 64

/-- Semantics of the emitted scalar int8 read:
`res.X = int8(data[0])` followed by `data = data[1:]`. -/
def readInt8Sem : List Nat → Option (Int × List Nat)
  | [] => none
  | b :: rest => some (toInt8 b, rest)

/-- Semantics of the emitted scalar int16 read:
`res.X = int16(binary.BigEndian.Uint16(data))` — the emitted code contains no
`data = data[2:]`, so the buffer is returned unchanged. -/
def readInt16Sem (data : List Nat) : Option (Int × List Nat) :=
  (beUint16 data).map fun n => (toInt16 n, data)

/-- Semantics of the emitted scalar int32 read:
`res.X = int32(binary.BigEndian.Uint32(data))` — no cursor advance. -/
def readInt32Sem (data : List Nat) : Option (Int × List Nat) :=
  (beUint32 data).map fun n => (toInt32 n, data)

/-- Semantics of the emitted scalar int64 read:
`res.X = int64(binary.BigEndian.Uint64(data))` — no cursor advance. -/
def readInt64Sem (data : List Nat) : Option (Int × List Nat) :=
  (beUint64 data).map fun n => (toInt64 n, data)

/-- Semantics of the emitted scalar uuid read:
`res.X = binary.BigEndian.Uint16(data)` — a two-byte unsigned read with no
cursor advance; the struct field holding it is declared `uint16`. -/
def readUuidSem (data : List Nat) : Option (Nat × List Nat) :=
  (beUint16 data).map fun n => (n, data)

/-- Semantics of the block emitted by `addReadString`:
```
stringLen := binary.BigEndian.Uint16(data)
if stringLen < 0 { UnexpectedNull } else if stringLen > 0x7fff { InvalidLength }
else { res.X = string(data[0:stringLen]); data = data[stringLen:] }
```
`stringLen` is a Go `uint16`, so the `stringLen < 0` comparison is kept on
`Nat` exactly as written.  The payload slice starts at offset 0 of the same
buffer the prefix was read from. -/
def readStringSem (data : List Nat) : Option (Except ReadErr (List Nat × List Nat)) :=
  match beUint16 data with
  | none => none
  | some stringLen =>
    if stringLen < 0 then some (Except.error ReadErr.unexpectedNull)
    else if stringLen > 0x7fff then some (Except.error ReadErr.invalidLength)
    else if stringLen ≤ data.length then
      some (Except.ok (data.take stringLen, data.drop stringLen))
    else none

/-- The loop of Go `binary.ReadUvarint`: base-128 little-endian groups with a
continuation bit, at most `MaxVarintLen64 = 10` bytes.  `rem` counts the bytes
the loop may still consume (so the byte index `i` of the source is `10 - rem`,
and `i = 9` exactly when `rem + 1` was matched with `rem = 0`); exhausting the
budget or the input is an overflow/EOF error.  `x` and the shifted groups live
in `uint64`, hence the `% 2 ^ 64`. -/
def readUvarintLoop : List Nat → Nat → Nat → Nat → Option (Nat × List Nat)
  | _, _, _, 0 => none
  | [], _, _, _ + 1 => none
  | b :: rest, x, s, rem + 1 =>
    if b < 2 ^ 7 then
      if rem = 0 ∧ 1 < b then none
      else some ((x ||| b <<< s) % 2 ^ 64, rest)
    else readUvarintLoop rest ((x ||| (b % 2 ^ 7) <<< s) % 2 ^ 64) (s + 7) rem

/-- Go `binary.ReadUvarint(bytes.NewReader(data))`. -/
def readUvarintGo (data : List Nat) : Option (Nat × List Nat) :=
  readUvarintLoop data 0 0 10

/-- The element count the emitted array logic runs its loop with:
`arrLen, err := binary.ReadUvarint(...)` followed by `arrLen--`, a `uint64`
decrement that wraps modulo `2 ^ 64`.  There is no check against the wire
value 0. -/
def arrayCountSem (data : List Nat) : Option Nat :=
  (readUvarintGo data).map fun p => (p.1 + (2 ^ 64 - 1)) % 2 ^ 64

/-- One element read of the emitted array loop; the result value is appended
to the field's slice and the buffer updated (or a panic / error path taken). -/
abbrev ElemStep (α : Type) := List Nat → Option (Except ReadErr (α × List Nat))

/-- The emitted loop `for i := uint64(0); i < arrLen; i++ { ... }`, collecting
the `append`ed element values in order. -/
def readArrayLoop (elem : ElemStep α) : Nat → List Nat → List α →
    Option (Except ReadErr (List α × List Nat))
  | 0, data, acc => some (Except.ok (acc, data))
  | n + 1, data, acc =>
    match elem data with
    | none => none
    | some (Except.error e) => some (Except.error e)
    | some (Except.ok (v, data)) => readArrayLoop elem n data (acc ++ [v])

/-- Semantics of the array block emitted by `addReadField`: read the uvarint
count from a fresh reader over `data` (leaving `data` itself in place),
decrement it with `uint64` wrap-around, then run the element read that many
times starting from the same, un-advanced `data`. -/
def readArraySem (elem : ElemStep α) (data : List Nat) :
    Option (Except ReadErr (List α × List Nat)) :=
  match readUvarintGo data with
  | none => some (Except.error ReadErr.varintFailure)
  | some (arrLen0, _) => readArrayLoop elem ((arrLen0 + (2 ^ 64 - 1)) % 2 ^ 64) data []

/-- The int8 case of the emitted array loop body:
`res.X = append(res.X, int8(data[0]))` then `data = data[1:]`. -/
def elemInt8Sem : ElemStep Int := fun data =>
  match data with
  | [] => none
  | b :: rest => some (Except.ok (toInt8 b, rest))

/-- Whether a decode outcome is the `UnexpectedNull` error. -/
def isUnexpectedNull : Option (Except ReadErr (List Nat × List Nat)) → Bool
  | some (Except.error ReadErr.unexpectedNull) => true
  | _ => false

example : readUvarintGo [0] = some (0, []) := rfl
example : readUvarintGo [3, 9] = some (3, [9]) := rfl
example : readUvarintGo [0x80, 2, 7] = some (256, [7]) := rfl
example : arrayCountSem [0] = some (2 ^ 64 - 1) := rfl
example : readArraySem elemInt8Sem [0] = none := rfl
example : readArraySem elemInt8Sem [2, 7] = some (Except.ok ([2], [7])) := rfl
example : readStringSem [255, 255] = some (Except.error ReadErr.invalidLength) := rfl

theorem versionRangeFind_length (s : String) :
    (versionRangeFind s).length = 0 ∨ (versionRangeFind s).length = 3 := by
  unfold versionRangeFind
  cases findRangeAux s.toList with
  | none => simp
  | some m => obtain ⟨a, b, c⟩ := m; simp

theorem versionMinFind_length (s : String) :
    (versionMinFind s).length = 0 ∨ (versionMinFind s).length = 2 := by
  unfold versionMinFind
  cases findMinAux s.toList with
  | none => simp
  | some m => obtain ⟨a, b⟩ := m; simp

theorem versionNumFind_length (s : String) :
    (versionNumFind s).length = 0 ∨ (versionNumFind s).length = 2 := by
  unfold versionNumFind
  cases findNumAux s.toList with
  | none => simp
  | some m => obtain ⟨a, b⟩ := m; simp

/-- Every guard in `addVersionIfClause` is dead: a match would make the slice
length 3 / 2 / 2 but the source tests for 2 / 1 / 1, so the function always
returns `false` having emitted nothing. -/
theorem addVersionIfClause_false (cb : CodeBuffer) (versions : String) :
    addVersionIfClause cb versions = (cb, false) := by
  unfold addVersionIfClause
  rcases versionRangeFind_length versions with h1 | h1 <;>
    rcases versionMinFind_length versions with h2 | h2 <;>
      rcases versionNumFind_length versions with h3 | h3 <;>
        simp [h1, h2, h3]

/-- Claim C1: the spec says `addVersionIfClause` emits a decode guard with
Range / Minimum / Exact semantics for matching versions strings.  In fact the
function emits no guard for ANY versions string and always reports `false`:
each branch tests `len(m) == 2` / `1` / `1` while Go's `FindStringSubmatch`
returns 3 / 2 / 2 strings on a match, so every field is decoded
unconditionally. -/
theorem claim_C1_no_version_guard_ever_emitted (cb : CodeBuffer) (versions : String) :
    addVersionIfClause cb versions = (cb, false) :=
  addVersionIfClause_false cb versions

/-- Claim C2: the spec says the emitted array logic fails with
`UnexpectedNull` on a wire count of 0.  In fact a wire count of 0 is
decremented with `uint64` wrap-around to `2 ^ 64 - 1` and the element loop is
entered (here it dies in an index panic once the buffer is exhausted, `none`);
only for wire counts `≥ 1` does the loop decode wire − 1 elements in order. -/
theorem claim_C2_null_array_sentinel_wraps :
    arrayCountSem [0] = some (2 ^ 64 - 1) ∧
    readArraySem elemInt8Sem [0] = none ∧
    arrayCountSem [3, 9] = some 2 ∧
    readArraySem elemInt8Sem [2, 7] = some (Except.ok ([2], [7])) :=
  ⟨rfl, rfl, rfl, rfl⟩

/-- Claim C3: the spec says every non-array primitive decode advances the
cursor by its width (1/2/4/8/16 bytes).  Only int8 advances (by 1); the
emitted int16 / int32 / int64 reads return the buffer unchanged because the
generated code contains no `data = data[2:]` / `[4:]` / `[8:]` statement. -/
theorem claim_C3_fixed_width_cursor_advance :
    readInt8Sem [200, 1] = some (-56, [1]) ∧
    readInt16Sem [0, 1, 9] = some (1, [0, 1, 9]) ∧
    readInt32Sem [0, 0, 0, 1, 9] = some (1, [0, 0, 0, 1, 9]) ∧
    readInt64Sem [0, 0, 0, 0, 0, 0, 0, 1, 9] = some (1, [0, 0, 0, 0, 0, 0, 0, 1, 9]) :=
  ⟨rfl, rfl, rfl, rfl⟩

/-- Claim C4: the spec says a string length prefix that is negative under a
signed 16-bit reading fails with `UnexpectedNull`.  In the emitted code
`stringLen` is an unsigned `uint16`, so the `stringLen < 0` null branch is
unreachable for every buffer, and the prefix `0xFFFF` (signed −1) takes the
`> 0x7fff` `InvalidLength` branch instead. -/
theorem claim_C4_null_string_branch_unreachable :
    (∀ data, isUnexpectedNull (readStringSem data) = false) ∧
    readStringSem [255, 255] = some (Except.error ReadErr.invalidLength) ∧
    readStringSem [0, 2, 65, 66] = some (Except.ok ([0, 2], [65, 66])) := by
  refine ⟨fun data => ?_, rfl, rfl⟩
  cases h : beUint16 data with
  | none => simp [readStringSem, h, isUnexpectedNull]
  | some stringLen =>
    simp only [readStringSem, h]
    rw [if_neg (Nat.not_lt_zero stringLen)]
    by_cases h : stringLen > 0x7fff
    · rw [if_pos h]; rfl
    · rw [if_neg h]
      by_cases h2 : stringLen ≤ data.length
      · rw [if_pos h2]; rfl
      · rw [if_neg h2]; rfl

/-- Claim C5: the spec says `uuid` is a fixed 16-byte value.  The generator
declares the struct field as `uint16` and emits a 2-byte
`binary.BigEndian.Uint16` read (with no cursor advance): two bytes of input
suffice, one does not. -/
theorem claim_C5_uuid_is_two_bytes :
    addStructFields emptyCodeBuffer "Msg" [.mk "x" "uuid" "" none []] =
      some ⟨["X uint16"], 0⟩ ∧
    addReadField emptyCodeBuffer "Msg" (.mk "x" "uuid" "" none []) =
      some (Except.ok ⟨["res.X = binary.BigEndian.Uint16(data)"], 0⟩) ∧
    readUuidSem [7, 9] = some (1801, [7, 9]) ∧
    readUuidSem [7] = none :=
  ⟨rfl, rfl, rfl, rfl⟩

/-- Claim C6 counterexample: a field of (unknown) type `"zzz"` does NOT fail
compilation with an unrecognized-type error — `addReadField` succeeds and
emits a decode step that calls the would-be record constructor `NewZzz`. -/
theorem claim_C6_counterexample :
    addReadField emptyCodeBuffer "Msg" (.mk "x" "zzz" "0+" none []) =
      some (Except.ok ⟨["\x7b",
        "    v, err := NewZzz(data)",
        "    if err != nil \x7b",
        "        return res, fmt.Errorf(\"problem building Zzz: %w\", err)",
        "    \x7d",
        "    res.X = v",
        "\x7d"], 0⟩) := rfl

/-- Claim C7: the spec says default literals are validated against the field
kind (failing with an unsupported-default error on mismatch) and assigned when
the version predicate is false.  Since `addVersionIfClause` never reports a
predicate, the whole default section of `addReadField` is unreachable: an
int default on a string field raises no error, and the emitted code for a
field with a default (matching or not) is identical to the code for the same
field without one — no default is ever assigned. -/
theorem claim_C7_default_section_unreachable :
    addReadField emptyCodeBuffer "Msg" (.mk "y" "string" "1" (some (.int 42)) []) =
      addReadField emptyCodeBuffer "Msg" (.mk "y" "string" "1" none []) ∧
    addReadField emptyCodeBuffer "Msg" (.mk "y" "string" "1" (some (.str "\"abc\"")) []) =
      addReadField emptyCodeBuffer "Msg" (.mk "y" "string" "1" none []) ∧
    addReadField emptyCodeBuffer "Msg" (.mk "y" "string" "1" none []) =
      some (Except.ok ⟨["\x7b",
        "    stringLen := binary.BigEndian.Uint16(data)",
        "    if stringLen < 0 \x7b",
        "        return res, fmt.Errorf(\"non-nullable field y was serialized as null\")",
        "    \x7d else if stringLen > 0x7fff \x7b",
        "        return res, fmt.Errorf(\"string field y had invalid length %d\", stringLen)",
        "    \x7d else \x7b",
        "        res.Y = string(data[0:stringLen])",
        "        data = data[stringLen:]",
        "    \x7d",
        "\x7d"], 0⟩) :=
  ⟨rfl, rfl, rfl⟩

/-- Claim C9 counterexample: for an inline field of base kind `"myRec"` in
message `"Foo"`, the emitted type definition is `type FoomyRec struct` (base
kind as written) while the constructor is `NewFooMyRec` returning `FooMyRec`
(base kind capitalized) — the type definition does not carry the
`<OwningMessageName><CapitalizedFieldBaseKind>` name the claim asserts. -/
theorem claim_C9_counterexample :
    addInlineStruct emptyCodeBuffer "Foo"
        (.mk "b" "myRec" "0+" none [.mk "c" "int32" "" none []]) =
      some (Except.ok ⟨["type FoomyRec struct \x7b",
        "    C int32",
        "\x7d",
        "func NewFooMyRec(data []byte) (FooMyRec, error) \x7b",
        "    var res FooMyRec",
        "    res.C = int32(binary.BigEndian.Uint32(data))",
        "    return res, nil",
        "\x7d"], 0⟩) ∧
    List.contains ["type FoomyRec struct \x7b",
        "    C int32",
        "\x7d",
        "func NewFooMyRec(data []byte) (FooMyRec, error) \x7b",
        "    var res FooMyRec",
        "    res.C = int32(binary.BigEndian.Uint32(data))",
        "    return res, nil",
        "\x7d"] "type FooMyRec struct \x7b" = false :=
  ⟨rfl, by decide⟩

theorem capitalize_empty : capitalize "" = none := rfl

theorem importFlagsStep_int (fl : Bool × Bool) (field : MessageField)
    (h : field.type = "int8" ∨ field.type = "int16" ∨ field.type = "int32" ∨
      field.type = "int64") :
    importFlagsStep fl field = some fl := by
  obtain ⟨nm, t, v, d, fs⟩ := field
  simp only [MessageField.type] at h
  rcases h with h | h | h | h <;> subst h <;> rfl

theorem collectImportFlags_ints : ∀ (l : List MessageField) (fl : Bool × Bool),
    (∀ f ∈ l, f.type = "int8" ∨ f.type = "int16" ∨ f.type = "int32" ∨ f.type = "int64") →
    collectImportFlags l fl = some fl
  | [], _, _ => rfl
  | f :: rest, fl, h => by
    have hstep := importFlagsStep_int fl f (h f (List.mem_cons_self f rest))
    have hrest := collectImportFlags_ints rest fl
      (fun g hg => h g (List.mem_cons_of_mem f hg))
    simp only [collectImportFlags, hstep, Option.some_bind]
    exact hrest

theorem importFlagsStep_empty (fl : Bool × Bool) (field : MessageField)
    (h : field.type = "") : importFlagsStep fl field = none := by
  obtain ⟨nm, t, v, d, fs⟩ := field
  simp only [MessageField.type] at h
  subst h
  rfl

theorem collectImportFlags_cons (field : MessageField) (rest : List MessageField)
    (fl : Bool × Bool) :
    collectImportFlags (field :: rest) fl =
      (importFlagsStep fl field).bind (fun fl => collectImportFlags rest fl) := rfl

theorem collectImportFlags_none : ∀ (l : List MessageField) (fl : Bool × Bool)
    {f : MessageField}, f ∈ l → f.type = "" → collectImportFlags l fl = none
  | g :: rest, fl, f, hmem, htype => by
    rcases List.mem_cons.mp hmem with rfl | hmem'
    · rw [collectImportFlags_cons, importFlagsStep_empty fl f htype]
      rfl
    · cases hg : importFlagsStep fl g with
      | none => rw [collectImportFlags_cons, hg]; rfl
      | some fl' =>
        rw [collectImportFlags_cons, hg]
        exact collectImportFlags_none rest fl' hmem' htype

theorem collectImports_eq (spec : Message) :
    collectImports spec =
      (collectImportFlags (spec.fields ++ (spec.commonStructs.map CommonStruct.fields).flatten)
        (false, false)).bind
        (fun fl => some ((if fl.1 then ["bytes"] else []) ++ ["encoding/binary"] ++
          (if fl.2 then ["fmt"] else []))) := rfl

theorem collectImports_none (spec : Message) {f : MessageField}
    (hf : f ∈ spec.fields) (htype : f.type = "") : collectImports spec = none := by
  rw [collectImports_eq, collectImportFlags_none _ _ (List.mem_append_left _ hf) htype]
  rfl

/-- Claim C8: `collectImports` of a message whose fields (and common structs'
fields) are all fixed-width integer kinds is exactly `["encoding/binary"]`,
and every import list it returns is sorted and duplicate-free. -/
theorem claim_C8_minimal_sorted_imports :
    (∀ (spec : Message) (l : List String), collectImports spec = some l →
      List.Sorted (· < ·) l ∧ l.Nodup) ∧
    (∀ spec : Message,
      (∀ f ∈ spec.fields ++ (spec.commonStructs.map CommonStruct.fields).flatten,
        f.type = "int8" ∨ f.type = "int16" ∨ f.type = "int32" ∨ f.type = "int64") →
      collectImports spec = some ["encoding/binary"]) := by
  constructor
  · intro spec l h
    rw [collectImports_eq, Option.bind_eq_some] at h
    obtain ⟨fl, hfl, hl⟩ := h
    simp only [Option.some_inj] at hl
    subst hl
    rcases fl with ⟨b, f⟩
    cases b <;> cases f <;>
      exact ⟨by simp [List.sorted_cons] <;> decide, by decide⟩
  · intro spec h
    rw [collectImports_eq, collectImportFlags_ints _ _ h]
    rfl

/-- Witness for C8: a concrete two-integer-field message yields exactly the
big-endian numeric import, which is sorted and duplicate-free. -/
theorem claim_C8_minimal_sorted_imports_witness :
    collectImports ⟨"M", [.mk "a" "int32" "0+" none [], .mk "b" "int64" "1+" none []], []⟩ =
      some ["encoding/binary"] ∧
    List.Sorted (· < ·) ["encoding/binary"] ∧ List.Nodup ["encoding/binary"] := by
  have h2 := claim_C8_minimal_sorted_imports.2
    ⟨"M", [.mk "a" "int32" "0+" none [], .mk "b" "int64" "1+" none []], []⟩ (by decide)
  have h1 := claim_C8_minimal_sorted_imports.1
    ⟨"M", [.mk "a" "int32" "0+" none [], .mk "b" "int64" "1+" none []], []⟩
    ["encoding/binary"] h2
  exact ⟨h2, h1.1, h1.2⟩

theorem addStructField_none (cb : CodeBuffer) (name : String) {field : MessageField}
    (h : field.name = "") : addStructField cb name field = none := by
  obtain ⟨nm, t, v, d, fs⟩ := field
  simp only [MessageField.name] at h
  subst h
  simp only [addStructField, MessageField.name, MessageField.type, MessageField.fields,
    capitalize_empty, Option.bind_eq_bind, Option.none_bind]
  split
  · cases deconstructFieldType
      (if t = "uuid" then "uint16" else if t = "bytes" then "[]byte" else t) with
    | none => rfl
    | some p => obtain ⟨isA, ft⟩ := p; rfl
  · rfl

theorem addStructFields_cons (cb : CodeBuffer) (name : String) (field : MessageField)
    (rest : List MessageField) :
    addStructFields cb name (field :: rest) =
      (addStructField cb name field).bind (fun cb => addStructFields cb name rest) := rfl

theorem addStructFields_none : ∀ (l : List MessageField) (cb : CodeBuffer) (name : String)
    {f : MessageField}, f ∈ l → f.name = "" → addStructFields cb name l = none
  | g :: rest, cb, name, f, hmem, hname => by
    rcases List.mem_cons.mp hmem with rfl | hmem'
    · rw [addStructFields_cons, addStructField_none cb name hname]
      rfl
    · cases hg : addStructField cb name g with
      | none => rw [addStructFields_cons, hg]; rfl
      | some cb' =>
        rw [addStructFields_cons, hg]
        exact addStructFields_none rest cb' name hmem' hname

theorem importFoldl_indentLevel (imports : List String) : ∀ cb : CodeBuffer,
    (imports.foldl (fun cb dep => cb.addLine ("\"" ++ dep ++ "\"")) cb).indentLevel =
      cb.indentLevel := by
  induction imports with
  | nil => intro cb; rfl
  | cons d rest ih => intro cb; rw [List.foldl_cons, ih]; rfl

theorem decIndent_eq_some {cb : CodeBuffer} (h : ¬cb.indentLevel = 0) :
    cb.decIndent = some { cb with indentLevel := cb.indentLevel - 1 } := by
  unfold CodeBuffer.decIndent
  rw [if_neg h]

/-- Claim C10: a message field with an empty name or an empty type string
makes `generateFile` panic (`none`) — `capitalize` slices `s[0:1]` of the
empty name, and `deconstructFieldType` indexes the nil result of the failed
regexp match — rather than return a compile-time error to the invoker. -/
theorem claim_C10_empty_name_or_type_panic (packageName : String) (spec : Message)
    (cb : CodeBuffer) {f : MessageField} (hf : f ∈ spec.fields)
    (h : f.name = "" ∨ f.type = "") :
    generateFile packageName spec cb = none := by
  rcases h with hname | htype
  · cases hci : collectImports spec with
    | none => simp only [generateFile, hci, Option.bind_eq_bind, Option.none_bind]
    | some imports =>
      simp only [generateFile, hci, Option.bind_eq_bind, Option.some_bind]
      rw [decIndent_eq_some (by rw [importFoldl_indentLevel]; exact Nat.succ_ne_zero _)]
      rw [Option.some_bind, addStructFields_none spec.fields _ spec.name hf hname]
      rfl
  · simp only [generateFile, collectImports_none spec hf htype, Option.bind_eq_bind,
      Option.none_bind]

/-- Witness for C10: concrete messages with an empty field name (and an empty
field type) both panic. -/
theorem claim_C10_empty_name_or_type_panic_witness :
    generateFile "kafka" ⟨"Msg", [.mk "" "int32" "0+" none []], []⟩ emptyCodeBuffer = none ∧
    generateFile "kafka" ⟨"Msg", [.mk "a" "" "0+" none []], []⟩ emptyCodeBuffer = none :=
  ⟨claim_C10_empty_name_or_type_panic "kafka" _ emptyCodeBuffer (List.mem_singleton.mpr rfl)
      (Or.inl rfl),
    claim_C10_empty_name_or_type_panic "kafka" _ emptyCodeBuffer (List.mem_singleton.mpr rfl)
      (Or.inr rfl)⟩

/-- Claim C6 (amended): a nonempty base name that is not a known primitive is
never rejected with an unrecognized-type failure: `addReadField` succeeds and
emits a decode step invoking the would-be record constructor
`New<CapitalizedBase>(data)`; an empty type string instead panics inside
`deconstructFieldType` (the regexp's nil result is indexed), again not a
compile-time error. -/
theorem claim_C6_amended_unknown_type_emits_constructor
    (name nm t v : String) (d : Option GoVal) (cn ct : String)
    (hd : deconstructFieldType t = some (false, t))
    (h8 : t ≠ "int8") (h16 : t ≠ "int16") (h32 : t ≠ "int32") (h64 : t ≠ "int64")
    (hs : t ≠ "string") (hu : t ≠ "uuid") (hb : t ≠ "bytes")
    (hcn : capitalize nm = some cn) (hct : capitalize t = some ct) :
    (addReadField emptyCodeBuffer name (.mk nm t v d []) =
      some (Except.ok ⟨["\x7b",
        "    " ++ ("v, err := New" ++ ct ++ "(data)"),
        "    if err != nil \x7b",
        "        " ++ ("return res, fmt.Errorf(\"problem building " ++ ct ++ ": %w\", err)"),
        "    \x7d",
        "    " ++ ("res." ++ cn ++ " = v"),
        "\x7d"], 0⟩)) ∧
    (∀ (cb : CodeBuffer) (name2 nm2 v2 : String) (d2 : Option GoVal)
        (fs2 : List MessageField),
      addReadField cb name2 (.mk nm2 "" v2 d2 fs2) = none) := by
  constructor
  · unfold addReadField
    rw [addVersionIfClause_false]
    simp only [MessageField.versions, MessageField.type, MessageField.name,
      MessageField.fields, MessageField.default, hd, Option.bind_eq_bind, Option.some_bind,
      addAllocateCommonStruct, h8, h16, h32, h64, hs, hu, hb, hcn, hct,
      if_neg, if_false, List.length_nil, gt_iff_lt, Nat.lt_irrefl]
    rfl
  · intro cb name2 nm2 v2 d2 fs2
    unfold addReadField
    rw [addVersionIfClause_false]
    rfl

/-- Witness for the amended C6: the unknown type `"yyy"` emits a `NewYyy`
constructor call with no error, and the empty type string panics. -/
theorem claim_C6_amended_unknown_type_emits_constructor_witness :
    addReadField emptyCodeBuffer "Msg" (.mk "x" "yyy" "2+" none []) =
      some (Except.ok ⟨["\x7b",
        "    " ++ ("v, err := New" ++ "Yyy" ++ "(data)"),
        "    if err != nil \x7b",
        "        " ++ ("return res, fmt.Errorf(\"problem building " ++ "Yyy" ++ ": %w\", err)"),
        "    \x7d",
        "    " ++ ("res." ++ "X" ++ " = v"),
        "\x7d"], 0⟩) ∧
    addReadField emptyCodeBuffer "M2" (.mk "a" "" "0+" none []) = none := by
  have h := claim_C6_amended_unknown_type_emits_constructor "Msg" "x" "yyy" "2+" none "X" "Yyy"
    rfl (by decide) (by decide) (by decide) (by decide) (by decide) (by decide) (by decide)
    rfl rfl
  exact ⟨h.1, h.2 emptyCodeBuffer "M2" "a" "0+" none []⟩

/-- Claim C9 (amended): `addInlineStruct` emits the type definition under
`<OwningMessageName><BaseKindAsWritten>` (the deconstructed base type without
capitalization), while the constructor declaration is
`New<OwningMessageName><CapitalizedBaseKind>` returning
`<OwningMessageName><CapitalizedBaseKind>`, and the decode site emitted by
`addAllocateInlineStruct` invokes exactly that constructor name; the names all
coincide exactly when the base kind is already capitalized. -/
theorem claim_C9_amended_inline_struct_names
    (cb : CodeBuffer) (name : String) (field : MessageField) (isA : Bool) (ft cft : String)
    (hd : deconstructFieldType field.type = some (isA, ft))
    (hcft : capitalize ft = some cft) :
    (addInlineStruct cb name field =
      (addStructFields ((cb.addLine ("type " ++ name ++ ft ++ " struct \x7b")).incIndent)
          name field.fields).bind fun cbS =>
        cbS.decIndent.bind fun cbS =>
          (addReadFields ((((cbS.addLine "\x7d").addLine
              ("func New" ++ name ++ cft ++ "(data []byte) (" ++ name ++ cft ++
                ", error) \x7b")).incIndent).addLine ("var res " ++ name ++ cft))
            name field.fields).bind fun r =>
            match r with
            | Except.error e => some (Except.error e)
            | Except.ok cbR =>
              (cbR.addLine "return res, nil").decIndent.bind fun c =>
                some (Except.ok (c.addLine "\x7d"))) ∧
    (addAllocateInlineStruct cb name field.type =
      some ⟨((((cb.addLine ("v, err := New" ++ name ++ cft ++ "(data)")).addLine
            "if err != nil \x7b").incIndent).addLine
            ("return res, fmt.Errorf(\"problem building " ++ name ++ cft ++ ": %w\", err)")).lines
          ++ [cb.indentSpaces ++ "\x7d"], cb.indentLevel⟩) := by
  constructor
  · unfold addInlineStruct
    rw [addVersionIfClause_false]
    simp only [MessageField.versions, hd, hcft, Option.bind_eq_bind, Option.some_bind]
    rfl
  · unfold addAllocateInlineStruct
    simp only [hd, hcft, Option.bind_eq_bind, Option.some_bind]
    rfl

/-- Witness for the amended C9 at an already-capitalized base kind `"Rec"`:
type definition, constructor and decode site all agree on `FooRec`. -/
theorem claim_C9_amended_inline_struct_names_witness :
    addInlineStruct emptyCodeBuffer "Foo" (.mk "b" "Rec" "0+" none [.mk "c" "int32" "" none []]) =
      some (Except.ok ⟨["type FooRec struct \x7b",
        "    C int32",
        "\x7d",
        "func NewFooRec(data []byte) (FooRec, error) \x7b",
        "    var res FooRec",
        "    res.C = int32(binary.BigEndian.Uint32(data))",
        "    return res, nil",
        "\x7d"], 0⟩) ∧
    addAllocateInlineStruct emptyCodeBuffer "Foo" "Rec" =
      some ⟨["v, err := NewFooRec(data)",
        "if err != nil \x7b",
        "    return res, fmt.Errorf(\"problem building FooRec: %w\", err)",
        "\x7d"], 0⟩ := by
  have h := claim_C9_amended_inline_struct_names emptyCodeBuffer "Foo"
    (.mk "b" "Rec" "0+" none [.mk "c" "int32" "" none []]) false "Rec" "Rec" rfl rfl
  exact ⟨h.1.trans (by rfl), h.2.trans (by rfl)⟩
